import Mathlib

/-!
Verification development for the node-grocy client library (src/index.mjs).

The JavaScript source is shallowly embedded: each relevant function of the
library is translated into an executable Lean definition.  JS strings become
`String`, JS numbers become an extended-rational type (finite rationals plus
NaN and the two infinities), nullable values become `Option`, thrown
exceptions become `Except String`, and the transport (`fetch`) becomes an
explicit oracle argument.  Observable effects that the specification talks
about (number of transport calls, number of body reads, serialized query
pairs, the client state after a call) are returned explicitly in a trace
record.
-/

namespace NodeGrocy

/-! ### Generic string helpers (models of JS `String.prototype` methods) -/

/-- Does `pat` occur at the head of `hay`?  (character-list matcher used to
model `String.prototype.includes`). -/
def charsLead : List Char → List Char → Bool
  | [], _ => true
  | _ :: _, [] => false
  | a :: as, b :: bs => a == b && charsLead as bs

/-- Does `pat` occur anywhere inside `hay`? -/
def charsHave : List Char → List Char → Bool
  | [], pat => charsLead pat []
  | h :: t, pat => charsLead pat (h :: t) || charsHave t pat

/-- Model of JS `s.includes(pat)`. -/
def strIncludes (s pat : String) : Bool :=
  charsHave s.toList pat.toList

/-- Model of JS `s.endsWith(suf)`. -/
def strEndsWith (s suf : String) : Bool :=
  suf.length ≤ s.length && (s.toList.drop (s.length - suf.length) == suf.toList)

/-- Per-character HTML-entity escaping of `validator.escape`.  The library's
sequential global replaces are equivalent to this single character-wise pass
because the replacement of `&` happens first and no later replacement output
contains a character from the replaced set other than `&`. -/
def escapeChar (c : Char) : String :=
  if c = '&' then "&amp;"
  else if c = '"' then "&quot;"
  else if c = Char.ofNat 39 then "&#x27;"
  else if c = '<' then "&lt;"
  else if c = '>' then "&gt;"
  else if c = '/' then "&#x2F;"
  else if c = '\\' then "&#x5C;"
  else if c = Char.ofNat 96 then "&#96;"
  else String.singleton c

/-- Model of `validator.escape` (HTML-entity escaping used for XSS
sanitization). -/
def jsEscape (s : String) : String :=
  String.join (s.toList.map escapeChar)

/-- Model of JS `s.trim()`: drop leading and trailing whitespace.  (Defined
on the character list so that it is structurally recursive and reduces in the
kernel; for the ASCII inputs of interest it agrees with the JS method.) -/
def jsTrim (s : String) : String :=
  String.mk (((s.toList.dropWhile Char.isWhitespace).reverse.dropWhile
    Char.isWhitespace).reverse)

/-! ### JS values appearing in query-parameter mappings -/

/-- The JS values the library's query-parameter serializer distinguishes:
`null`, `undefined`, booleans, (integral) numbers, strings and arrays. -/
inductive JVal where
  | vNull
  | vUndefined
  | vBool (b : Bool)
  | vInt (n : Int)
  | vStr (s : String)
  | vArr (elems : List JVal)

mutual

/-- Model of the JS `String(v)` conversion for the values of `JVal`
(`URLSearchParams.append` coerces its argument with it; for the non-null
non-undefined values it agrees with `v.toString()`). -/
def jsStr : JVal → String
  | JVal.vNull => "null"
  | JVal.vUndefined => "undefined"
  | JVal.vBool b => cond b "true" "false"
  | JVal.vInt n => toString n
  | JVal.vStr s => s
  | JVal.vArr es => String.intercalate "," (jsJoinParts es)

/-- Model of `Array.prototype.join(",")`: `null`/`undefined` elements render
as the empty string, every other element via `String(v)`. -/
def jsJoinParts : List JVal → List String
  | [] => []
  | JVal.vNull :: rest => "" :: jsJoinParts rest
  | JVal.vUndefined :: rest => "" :: jsJoinParts rest
  | v :: rest => jsStr v :: jsJoinParts rest

end

/-- Is the value none of `null`/`undefined`/array?  (the serializer's final
`else if` branch). -/
def JVal.isPlain : JVal → Bool
  | JVal.vNull => false
  | JVal.vUndefined => false
  | JVal.vArr _ => false
  | _ => true

/-! ### Query-parameter serialization (src/index.mjs, `Grocy.request`)

```js
Object.entries(queryParams).forEach(([key, value]) => {
  if (Array.isArray(value)) {
    value.forEach((v) => url.searchParams.append(`${key}[]`, v));
  } else if (value !== undefined && value !== null) {
    url.searchParams.append(key, value.toString());
  }
});
``` -/

/-- The query pairs appended for a single `(key, value)` entry. -/
def appendParamPairs (key : String) (value : JVal) : List (String × String) :=
  match value with
  | JVal.vArr es => es.map (fun v => (key ++ "[]", jsStr v))
  | JVal.vNull => []
  | JVal.vUndefined => []
  | v => [(key, jsStr v)]

/-- All query pairs appended for a mapping, in `Object.entries` order. -/
def buildSearchParams (qp : List (String × JVal)) : List (String × String) :=
  qp.flatMap (fun kv => appendParamPairs kv.1 kv.2)

example : buildSearchParams [("k", JVal.vArr [JVal.vInt 1, JVal.vInt 2])] =
    [("k[]", "1"), ("k[]", "2")] := by decide

example : buildSearchParams [("k", JVal.vNull), ("q", JVal.vStr "x")] =
    [("q", "x")] := by decide

/-! ### String validation (src/index.mjs, `validateString` / `validateOptionalString`) -/

/-- The JS values fed to `validateString`: `null`, `undefined`, a string, or
any other (non-string) value. -/
inductive StrInput where
  | jsNull
  | jsUndefined
  | str (s : String)
  | other
deriving DecidableEq

/-- The options object of `validateString` with its defaults already
resolved (`required = true`, `maxLength = 255`, `minLength` absent,
`sanitize = true` unless the call site overrides them). -/
structure StrOptions where
  required : Bool
  maxLength : Nat
  minLength : Option Nat
  sanitize : Bool
deriving DecidableEq

/-- The `minLength !== undefined && trimmedLength < minLength` check. -/
def minLenCheck (s : String) (fieldName : String) (minLength : Option Nat) : Option String :=
  match minLength with
  | some ml =>
      if (jsTrim s).length < ml then
        some (fieldName ++ " must be at least " ++ toString ml ++ " characters")
      else none
  | none => none

/-- Model of `validateString(value, fieldName, options)`.  JS truthiness:
`!value` holds for `null`, `undefined` and `""`; `!value.trim()` holds for
whitespace-only strings. -/
def validateString (value : StrInput) (fieldName : String) (opts : StrOptions) :
    Except String String :=
  match value with
  | StrInput.other => Except.error (fieldName ++ " must be a string")
  | StrInput.jsNull =>
      if opts.required then
        Except.error (fieldName ++ " is required and must be non-empty")
      else Except.ok ""
  | StrInput.jsUndefined =>
      if opts.required then
        Except.error (fieldName ++ " is required and must be non-empty")
      else Except.ok ""
  | StrInput.str s =>
      if opts.required ∧ (s = "" ∨ jsTrim s = "") then
        Except.error (fieldName ++ " is required and must be non-empty")
      else if ¬ opts.required ∧ s = "" then
        Except.ok ""
      else
        match minLenCheck s fieldName opts.minLength with
        | some e => Except.error e
        | none =>
            if (jsTrim s).length > opts.maxLength then
              Except.error (fieldName ++ " must not exceed " ++ toString opts.maxLength ++
                " characters")
            else Except.ok (if opts.sanitize then jsEscape s else s)

/-- Model of `validateOptionalString`: `null`/`undefined` pass through as
absent, otherwise `validateString` runs with `required: false`. -/
def validateOptionalString (value : StrInput) (fieldName : String) (opts : StrOptions) :
    Except String (Option String) :=
  match value with
  | StrInput.jsNull => Except.ok none
  | StrInput.jsUndefined => Except.ok none
  | v => (validateString v fieldName { opts with required := false }).map some

/-! ### Number validation (src/index.mjs, `validateNumber`) -/

/-- JS numbers: finite values (modelled as rationals), `NaN` and the two
infinities. -/
inductive JsNumber where
  | fin (q : ℚ)
  | nan
  | inf
  | negInf
deriving DecidableEq

/-- `isNaN(value)` for a JS number. -/
def JsNumber.isNaN : JsNumber → Bool
  | JsNumber.nan => true
  | _ => false

/-- Is the number finite (neither `NaN` nor an infinity)? -/
def JsNumber.isFinite : JsNumber → Bool
  | JsNumber.fin _ => true
  | _ => false

/-- JS `value < bound` for a finite bound (`NaN` comparisons are false). -/
def JsNumber.ltQ : JsNumber → ℚ → Bool
  | JsNumber.fin q, m => decide (q < m)
  | JsNumber.nan, _ => false
  | JsNumber.inf, _ => false
  | JsNumber.negInf, _ => true

/-- JS `value > bound` for a finite bound (`NaN` comparisons are false). -/
def JsNumber.gtQ : JsNumber → ℚ → Bool
  | JsNumber.fin q, m => decide (m < q)
  | JsNumber.nan, _ => false
  | JsNumber.inf, _ => true
  | JsNumber.negInf, _ => false

/-- The values fed to `validateNumber`: a JS number or any other value. -/
inductive NumInput where
  | num (n : JsNumber)
  | other
deriving DecidableEq

/-- The options object of `validateNumber` with its defaults resolved
(`min = 0`, `max` absent unless the call site overrides them).  The bounds
the library passes are always finite numbers, modelled as rationals. -/
structure NumOptions where
  min : ℚ
  max : Option ℚ
deriving DecidableEq

/-- Rendering of a bound in an error message (`${min}` / `${max}`): for the
integral bounds the library uses this agrees with the JS number-to-string
conversion. -/
def qStr (q : ℚ) : String :=
  if q.den = 1 then toString q.num else toString q.num ++ "/" ++ toString q.den

/-- Model of `validateNumber(value, fieldName, options)`:

```js
if (typeof value !== 'number' || isNaN(value)) { throw ...valid number }
if (value < min) { throw ...at least min }
if (max !== undefined && value > max) { throw ...at most max }
return value;
``` -/
def validateNumber (value : NumInput) (fieldName : String) (opts : NumOptions) :
    Except String JsNumber :=
  match value with
  | NumInput.other => Except.error (fieldName ++ " must be a valid number")
  | NumInput.num n =>
      if n.isNaN then Except.error (fieldName ++ " must be a valid number")
      else if n.ltQ opts.min then
        Except.error (fieldName ++ " must be at least " ++ qStr opts.min)
      else
        match opts.max with
        | some mx =>
            if n.gtQ mx then
              Except.error (fieldName ++ " must be at most " ++ qStr mx)
            else Except.ok n
        | none => Except.ok n

example : validateNumber (NumInput.num (JsNumber.fin 5)) "Amount" ⟨0, none⟩ =
    Except.ok (JsNumber.fin 5) := rfl

example : validateNumber (NumInput.num JsNumber.inf) "Amount" ⟨0, none⟩ =
    Except.ok JsNumber.inf := rfl

example : validateNumber (NumInput.num (JsNumber.fin (-1))) "Amount" ⟨0, none⟩ =
    Except.error "Amount must be at least 0" := rfl

/-! ### Transport responses (the shape `Grocy.request` consumes) -/

/-- The JSON document a response body parses to, as far as the dispatcher
inspects it: its `error_message` field (with `some ""` modelling a present
but empty field, which is falsy in JS) plus the rest of the payload kept
opaque. -/
structure JsonBody where
  errorMessage : Option String
  payload : String
deriving DecidableEq

instance exceptDecEq {ε α : Type} [DecidableEq ε] [DecidableEq α] :
    DecidableEq (Except ε α)
  | Except.error e, Except.error f => decidable_of_iff (e = f) (by simp)
  | Except.error _, Except.ok _ => isFalse (by simp)
  | Except.ok _, Except.error _ => isFalse (by simp)
  | Except.ok a, Except.ok b => decidable_of_iff (a = b) (by simp)

/-- A transport (`fetch`) response: status code, the `content-type` header
(`none` when absent), the outcome of `response.json()` (`Except.error` is a
JSON parse failure carrying the thrown message) and the outcome of
`response.text()`. -/
structure JsResponse where
  status : Nat
  contentType : Option String
  json : Except String JsonBody
  text : String
deriving DecidableEq

/-- `response.ok`: status in the inclusive range 200–299. -/
def respOk (resp : JsResponse) : Bool :=
  decide (200 ≤ resp.status) && decide (resp.status ≤ 299)

/-- `contentType && contentType.includes(pat)`: the header must be present
and truthy (non-empty) and contain the pattern. -/
def ctIncludes (ct : Option String) (pat : String) : Bool :=
  match ct with
  | none => false
  | some s => !(s == "") && strIncludes s pat

/-- The generic failure message `` `HTTP error! status: ${response.status}` ``. -/
def httpErrMsg (status : Nat) : String :=
  "HTTP error! status: " ++ toString status

/-- JS `jsonData.error_message || fallback`: the field's value when it is
present and truthy (non-empty), else the fallback. -/
def errMsgOr (em : Option String) (fallback : String) : String :=
  match em with
  | some s => if s = "" then fallback else s
  | none => fallback

/-! ### Response normalization (src/index.mjs, body of `Grocy.request`'s `try`) -/

/-- The canonical successful outcomes of `Grocy.request`. -/
inductive ReqValue where
  | emptySuccess
  | jsonValue (body : JsonBody)
  | calendar (text : String)
  | binarySuccess (resp : JsResponse)
deriving DecidableEq

/-- Result of a dispatched request: a normalized value or a thrown error
message. -/
inductive ReqResult where
  | ok (v : ReqValue)
  | err (msg : String)
deriving DecidableEq

/-- The status/content-type ladder inside `Grocy.request`'s `try` block.
Returns the outcome (errors still unwrapped, as thrown inside the `try`)
together with the number of body reads (`response.json()`/`response.text()`
calls) performed. -/
def normalizeResponse (resp : JsResponse) : Except String ReqValue × Nat :=
  if resp.status = 204 then
    (Except.ok ReqValue.emptySuccess, 0)
  else if ctIncludes resp.contentType "application/json" then
    match resp.json with
    | Except.error parseMsg => (Except.error parseMsg, 1)
    | Except.ok body =>
        if !respOk resp then
          (Except.error (errMsgOr body.errorMessage (httpErrMsg resp.status)), 1)
        else (Except.ok (ReqValue.jsonValue body), 1)
  else if ctIncludes resp.contentType "text/calendar" then
    (Except.ok (ReqValue.calendar resp.text), 1)
  else if respOk resp then
    (Except.ok (ReqValue.binarySuccess resp), 0)
  else (Except.error (httpErrMsg resp.status), 0)

/-- The outer `catch`: every error thrown inside `request` (after the API-key
check) is re-thrown as `` `Grocy API request failed: ${error.message}` ``. -/
def wrapFailure : Except String ReqValue → ReqResult
  | Except.ok v => ReqResult.ok v
  | Except.error m => ReqResult.err ("Grocy API request failed: " ++ m)

/-! ### The client (src/index.mjs, `class Grocy`) -/

/-- The client's observable fields: the normalized base URL and the stored
API key (`none` models `null`). -/
structure GrocyState where
  baseUrl : String
  apiKey : Option String
deriving DecidableEq

/-- The constructor's base-URL normalization:
`validatedBaseUrl.endsWith('/api') ? validatedBaseUrl : validatedBaseUrl + '/api'`. -/
def normApi (s : String) : String :=
  if strEndsWith s "/api" then s else s ++ "/api"

/-- `validatedApiKey ? Object.freeze(validatedApiKey) : null` — JS truthiness
maps the empty string (and absence) to `null`. -/
def keyOrNull (vk : Option String) : Option String :=
  match vk with
  | some k => if k = "" then none else some k
  | none => none

/-- The options `{ minLength: 1, sanitize: false }` with `validateString`'s
defaults filled in, as used for the base URL and the API key. -/
def rawStrOpts : StrOptions :=
  { required := true, maxLength := 255, minLength := some 1, sanitize := false }

/-- Model of `new Grocy(baseUrl, apiKey)`. -/
def mkGrocy (baseUrl : StrInput) (apiKey : StrInput) : Except String GrocyState := do
  let vb ← validateString baseUrl "Base URL" rawStrOpts
  let vk ← validateOptionalString apiKey "API key" rawStrOpts
  Except.ok { baseUrl := normApi vb, apiKey := keyOrNull vk }

/-- Model of `Grocy.setApiKey`. -/
def setApiKey (st : GrocyState) (apiKey : StrInput) : Except String GrocyState := do
  let vk ← validateOptionalString apiKey "API key" rawStrOpts
  Except.ok { st with apiKey := keyOrNull vk }

/-- `!this.apiKey`: absent or empty-string key is falsy. -/
def isFalsyKey : Option String → Bool
  | none => true
  | some s => s == ""

/-! ### The dispatcher (src/index.mjs, `Grocy.request`) -/

/-- Everything observable about one `request` call: its outcome, how many
`fetch` calls it made, the query pairs it appended to the URL, how many body
reads it performed, the body it attached, and the client state afterwards. -/
structure RequestTrace where
  result : ReqResult
  fetchCalls : Nat
  queryPairs : List (String × String)
  bodyReads : Nat
  sentBody : Option String
  urlBase : String
  stateAfter : GrocyState
deriving DecidableEq

/-- Model of `Grocy.request(endpoint, method, data, queryParams)`.  The
transport is an oracle: `Except.ok` is the response `fetch` resolves with,
`Except.error` a network failure it rejects with (its message). -/
def request (st : GrocyState) (endpoint method : String) (data : Option String)
    (qp : List (String × JVal)) (transport : Except String JsResponse) : RequestTrace :=
  if isFalsyKey st.apiKey then
    { result := ReqResult.err "API key is required. Use setApiKey() to set it."
      fetchCalls := 0
      queryPairs := []
      bodyReads := 0
      sentBody := none
      urlBase := ""
      stateAfter := st }
  else
    let pairs := buildSearchParams qp
    let body := if data.isSome ∧ (method = "POST" ∨ method = "PUT") then data else none
    match transport with
    | Except.error netMsg =>
        { result := wrapFailure (Except.error netMsg)
          fetchCalls := 1
          queryPairs := pairs
          bodyReads := 0
          sentBody := body
          urlBase := st.baseUrl ++ endpoint
          stateAfter := st }
    | Except.ok resp =>
        let (outcome, reads) := normalizeResponse resp
        { result := wrapFailure outcome
          fetchCalls := 1
          queryPairs := pairs
          bodyReads := reads
          sentBody := body
          urlBase := st.baseUrl ++ endpoint
          stateAfter := st }

/-! ### File endpoints (src/index.mjs, `getFile` / `uploadFile` / `deleteFile`)

Each validates its `group` and `fileName` arguments and then interpolates
them into the path `` `/files/${group}/${fileName}` ``.  `getFile` and
`deleteFile` validate with `sanitize: false`; `uploadFile` leaves
`validateString`'s default `sanitize: true` in place. -/

/-- The path `getFile` hands to `this.request` (its `group`/`fileName`
validation uses `{ minLength: 1, maxLength: 100|255, sanitize: false }`). -/
def getFilePath (group fileName : StrInput) : Except String String := do
  let g ← validateString group "File group"
    { required := true, maxLength := 100, minLength := some 1, sanitize := false }
  let f ← validateString fileName "File name"
    { required := true, maxLength := 255, minLength := some 1, sanitize := false }
  Except.ok ("/files/" ++ g ++ "/" ++ f)

/-- The path `uploadFile` builds for its own `fetch` call (its validation
passes `{ minLength: 1, maxLength: 100|255 }`, leaving the default
`sanitize: true`). -/
def uploadFilePath (group fileName : StrInput) : Except String String := do
  let g ← validateString group "File group"
    { required := true, maxLength := 100, minLength := some 1, sanitize := true }
  let f ← validateString fileName "File name"
    { required := true, maxLength := 255, minLength := some 1, sanitize := true }
  Except.ok ("/files/" ++ g ++ "/" ++ f)

/-- The path `deleteFile` hands to `this.request` (validation identical to
`getFile`'s, with `sanitize: false`). -/
def deleteFilePath (group fileName : StrInput) : Except String String := do
  let g ← validateString group "File group"
    { required := true, maxLength := 100, minLength := some 1, sanitize := false }
  let f ← validateString fileName "File name"
    { required := true, maxLength := 255, minLength := some 1, sanitize := false }
  Except.ok ("/files/" ++ g ++ "/" ++ f)

/-- A concrete client state with a credential set, for witnesses. -/
def demoState : GrocyState := { baseUrl := "https://h/api", apiKey := some "key" }

/-- The credential-state invariant the code actually maintains: the stored
API key is absent or a string with non-empty trim (it may carry surrounding
whitespace, since `validateString` returns the original string). -/
def apiKeyWF (st : GrocyState) : Prop :=
  st.apiKey = none ∨ ∃ k, st.apiKey = some k ∧ jsTrim k ≠ ""

/-! ## Theorems -/

/-- C1: with an absent API key, `request` fails with the fixed
"API key is required" message before touching query parameters or the
transport: no fetch call, no query pair, no body read, no body sent, no URL
built, and the client state is unchanged — for every endpoint, method, body,
query mapping and transport behaviour. -/
theorem c1_missing_key_fails_before_transport
    (st : GrocyState) (endpoint method : String) (data : Option String)
    (qp : List (String × JVal)) (transport : Except String JsResponse)
    (hkey : st.apiKey = none) :
    request st endpoint method data qp transport =
      { result := ReqResult.err "API key is required. Use setApiKey() to set it."
        fetchCalls := 0
        queryPairs := []
        bodyReads := 0
        sentBody := none
        urlBase := ""
        stateAfter := st } := by
  simp [request, isFalsyKey, hkey]

/-- C1 witness at a concrete call. -/
theorem c1_missing_key_fails_before_transport_witness :
    request { baseUrl := "https://h/api", apiKey := none } "/system/info" "GET" none
        [("k", JVal.vArr [JVal.vInt 1])] (Except.error "network down") =
      { result := ReqResult.err "API key is required. Use setApiKey() to set it."
        fetchCalls := 0
        queryPairs := []
        bodyReads := 0
        sentBody := none
        urlBase := ""
        stateAfter := { baseUrl := "https://h/api", apiKey := none } } :=
  c1_missing_key_fails_before_transport _ _ _ _ _ _ rfl

/-- C2: a status-204 response always yields the empty-success marker, for
every content-type header, and without reading the body. -/
theorem c2_status_204_empty_success
    (st : GrocyState) (endpoint method : String) (data : Option String)
    (qp : List (String × JVal)) (resp : JsResponse)
    (hkey : isFalsyKey st.apiKey = false) (h204 : resp.status = 204) :
    (request st endpoint method data qp (Except.ok resp)).result =
      ReqResult.ok ReqValue.emptySuccess
    ∧ (request st endpoint method data qp (Except.ok resp)).bodyReads = 0 := by
  constructor <;> simp [request, hkey, normalizeResponse, h204, wrapFailure]

/-- C2 witness: a 204 response whose content-type claims `application/json`
and whose body reader would fail. -/
theorem c2_status_204_empty_success_witness :
    (request demoState "/stock" "GET" none []
        (Except.ok { status := 204, contentType := some "application/json"
                     json := Except.error "unexpected end of input"
                     text := "" })).result = ReqResult.ok ReqValue.emptySuccess
    ∧ (request demoState "/stock" "GET" none []
        (Except.ok { status := 204, contentType := some "application/json"
                     json := Except.error "unexpected end of input"
                     text := "" })).bodyReads = 0 :=
  c2_status_204_empty_success demoState "/stock" "GET" none [] _ rfl rfl

/-- C10: array-valued query parameters append one `key[]` pair per element
in order, including `null` and `undefined` elements (which the URL layer
stringifies to `"null"`/`"undefined"`), so `n` elements always yield exactly
`n` pairs — in contrast with top-level `null`/`undefined` values, which are
skipped. -/
theorem c10_array_elements_never_skipped (k : String) (l : List JVal) :
    appendParamPairs k (JVal.vArr l) = l.map (fun e => (k ++ "[]", jsStr e))
    ∧ (buildSearchParams [(k, JVal.vArr l)]).length = l.length
    ∧ jsStr JVal.vNull = "null"
    ∧ jsStr JVal.vUndefined = "undefined"
    ∧ appendParamPairs k JVal.vNull = []
    ∧ appendParamPairs k JVal.vUndefined = [] := by
  refine ⟨rfl, ?_, rfl, rfl, rfl, rfl⟩
  simp [buildSearchParams, appendParamPairs]

/-- C9: `getFile` and `deleteFile` pass the caller's exact characters into
the `/files/<group>/<fileName>` path, but `uploadFile` leaves the default
HTML-entity sanitization on, so its path is corrupted for file groups or
names containing escapable characters — contradicting the library's own
security note that file paths are never sanitized. -/
theorem c9_uploadFile_sanitizes_paths :
    getFilePath (StrInput.str "a&b") (StrInput.str "x.jpg") =
      Except.ok "/files/a&b/x.jpg"
    ∧ deleteFilePath (StrInput.str "a&b") (StrInput.str "x.jpg") =
      Except.ok "/files/a&b/x.jpg"
    ∧ uploadFilePath (StrInput.str "a&b") (StrInput.str "x.jpg") =
      Except.ok "/files/a&amp;b/x.jpg"
    ∧ ("/files/a&amp;b/x.jpg" : String) ≠ "/files/a&b/x.jpg" := by
  refine ⟨rfl, rfl, rfl, by decide⟩

/-- C5 counterexample: a response with status 204 and content-type
`text/calendar` yields the empty-success marker, not the calendar wrapper —
the claim's "regardless of the HTTP status code observed" fails at 204,
where the no-content check takes precedence over content-type inspection. -/
theorem c5_counterexample_status_204 :
    ctIncludes (some "text/calendar") "text/calendar" = true
    ∧ (request demoState "/calendar/ical" "GET" none []
        (Except.ok { status := 204, contentType := some "text/calendar"
                     json := Except.error "no body"
                     text := "BEGIN:VCALENDAR" })).result =
        ReqResult.ok ReqValue.emptySuccess
    ∧ ReqResult.ok ReqValue.emptySuccess ≠
        ReqResult.ok (ReqValue.calendar "BEGIN:VCALENDAR") := by
  refine ⟨by decide, rfl, by decide⟩

/-- C5 (amended): for every response with status other than 204 whose
content-type contains `text/calendar` and does not contain
`application/json`, `request` returns exactly `{ calendar: <body text> }`,
regardless of the HTTP status code (including failing statuses). -/
theorem c5_calendar_wrapped
    (st : GrocyState) (endpoint method : String) (data : Option String)
    (qp : List (String × JVal)) (resp : JsResponse)
    (hkey : isFalsyKey st.apiKey = false)
    (h204 : resp.status ≠ 204)
    (hjson : ctIncludes resp.contentType "application/json" = false)
    (hcal : ctIncludes resp.contentType "text/calendar" = true) :
    (request st endpoint method data qp (Except.ok resp)).result =
      ReqResult.ok (ReqValue.calendar resp.text) := by
  simp [request, hkey, normalizeResponse, h204, hjson, hcal, wrapFailure]

/-- C5 witness: a failing status 500 with a calendar body. -/
theorem c5_calendar_wrapped_witness :
    (request demoState "/calendar/ical" "GET" none []
        (Except.ok { status := 500, contentType := some "text/calendar"
                     json := Except.error "not json"
                     text := "BEGIN:VCALENDAR" })).result =
      ReqResult.ok (ReqValue.calendar "BEGIN:VCALENDAR") :=
  c5_calendar_wrapped demoState "/calendar/ical" "GET" none [] _
    rfl (by decide) (by decide) (by decide)

/-- C3 counterexample: with a present but empty `error_message` field
(`{"error_message": ""}`), the thrown message falls back to the generic
`HTTP error! status: 400` — the claim's "if that field is present" fails,
because the code uses JS truthiness (`error_message || generic`). -/
theorem c3_counterexample_empty_error_message :
    ({ errorMessage := some "", payload := "{}" } : JsonBody).errorMessage = some ""
    ∧ (request demoState "/stock" "GET" none []
        (Except.ok { status := 400, contentType := some "application/json"
                     json := Except.ok { errorMessage := some "", payload := "{}" }
                     text := "" })).result =
        ReqResult.err "Grocy API request failed: HTTP error! status: 400"
    ∧ ReqResult.err "Grocy API request failed: HTTP error! status: 400" ≠
        ReqResult.err "Grocy API request failed: " := by
  refine ⟨rfl, rfl, by decide⟩

/-- C3 (amended): for every non-204 JSON response with a failing (non-2xx)
status whose body parses, `request` throws the fixed prefix
"Grocy API request failed: " followed by the body's `error_message` field
when that field is present and non-empty, else followed by the generic
"HTTP error! status: <code>" message. -/
theorem c3_json_failure_message
    (st : GrocyState) (endpoint method : String) (data : Option String)
    (qp : List (String × JVal)) (resp : JsResponse) (body : JsonBody)
    (hkey : isFalsyKey st.apiKey = false)
    (h204 : resp.status ≠ 204)
    (hct : ctIncludes resp.contentType "application/json" = true)
    (hparse : resp.json = Except.ok body)
    (hfail : respOk resp = false) :
    ((body.errorMessage = none ∨ body.errorMessage = some "") →
      (request st endpoint method data qp (Except.ok resp)).result =
        ReqResult.err ("Grocy API request failed: " ++
          ("HTTP error! status: " ++ toString resp.status)))
    ∧ (∀ em, body.errorMessage = some em → em ≠ "" →
      (request st endpoint method data qp (Except.ok resp)).result =
        ReqResult.err ("Grocy API request failed: " ++ em)) := by
  constructor
  · rintro (hem | hem) <;>
      simp [request, hkey, normalizeResponse, h204, hct, hparse, hfail, wrapFailure,
        errMsgOr, httpErrMsg, hem]
  · intro em hem hne
    simp [request, hkey, normalizeResponse, h204, hct, hparse, hfail, wrapFailure,
      errMsgOr, httpErrMsg, hem, hne]

/-- C3 witness: status 400 with body `{"error_message": "Bad request"}`
yields the wrapped server message, and with body `{}` the wrapped generic
message. -/
theorem c3_json_failure_message_witness :
    (request demoState "/stock" "GET" none []
        (Except.ok { status := 400, contentType := some "application/json"
                     json := Except.ok { errorMessage := some "Bad request", payload := "" }
                     text := "" })).result =
      ReqResult.err "Grocy API request failed: Bad request"
    ∧ (request demoState "/stock" "GET" none []
        (Except.ok { status := 400, contentType := some "application/json"
                     json := Except.ok { errorMessage := none, payload := "{}" }
                     text := "" })).result =
      ReqResult.err "Grocy API request failed: HTTP error! status: 400" := by
  constructor
  · exact (c3_json_failure_message demoState "/stock" "GET" none [] _ _
      rfl (by decide) (by decide) rfl (by decide)).2 "Bad request" rfl (by decide)
  · exact (c3_json_failure_message demoState "/stock" "GET" none [] _ _
      rfl (by decide) (by decide) rfl (by decide)).1 (Or.inl rfl)

/-- A key cannot equal itself with `[]` appended (lengths differ by 2). -/
lemma ne_append_brackets (k : String) : k ≠ k ++ "[]" := by
  intro h
  have hl := congrArg String.length h
  rw [String.length_append] at hl
  have h2 : ("[]" : String).length = 2 := rfl
  rw [h2] at hl
  omega

/-- Every pair an entry appends is named either `key` or `key ++ "[]"`. -/
lemma mem_appendParamPairs_name {k : String} {v : JVal} {p : String × String}
    (hp : p ∈ appendParamPairs k v) : p.1 = k ∨ p.1 = k ++ "[]" := by
  cases v with
  | vArr es =>
      right
      simp only [appendParamPairs, List.mem_map] at hp
      obtain ⟨e, _, he⟩ := hp
      rw [← he]
  | vNull => simp [appendParamPairs] at hp
  | vUndefined => simp [appendParamPairs] at hp
  | vBool bb =>
      left
      simp only [appendParamPairs, List.mem_singleton] at hp
      rw [hp]
  | vInt n =>
      left
      simp only [appendParamPairs, List.mem_singleton] at hp
      rw [hp]
  | vStr s =>
      left
      simp only [appendParamPairs, List.mem_singleton] at hp
      rw [hp]

/-- A mapping none of whose keys can serialize to name `n` contributes no
query pair named `n`. -/
lemma filter_buildSearchParams_nil {qp : List (String × JVal)} {n : String}
    (h : ∀ kv ∈ qp, kv.1 ≠ n ∧ kv.1 ++ "[]" ≠ n) :
    (buildSearchParams qp).filter (fun p => p.1 == n) = [] := by
  rw [List.filter_eq_nil_iff]
  intro p hp
  rw [buildSearchParams, List.mem_flatMap] at hp
  obtain ⟨kv, hkv, hpin⟩ := hp
  rcases mem_appendParamPairs_name hpin with h1 | h1 <;>
    simp [h1, (h kv hkv).1, (h kv hkv).2]

/-- `buildSearchParams` distributes over concatenation of mappings. -/
lemma buildSearchParams_append (l1 l2 : List (String × JVal)) :
    buildSearchParams (l1 ++ l2) = buildSearchParams l1 ++ buildSearchParams l2 := by
  simp [buildSearchParams]

/-- C4: in a query mapping where no other entry's key is `k`, `k ++ "[]"`,
or serializes to one of those names: an array value `[a,b,c]` under key `k`
yields exactly the three pairs `k[]=a, k[]=b, k[]=c` in order and zero bare
`k` pairs; a `null` or `undefined` value under `k` yields no occurrence of
`k` (nor `k[]`) at all; and any other non-null value `v` yields exactly the
single pair `k=<canonical string form of v>`. -/
theorem c4_query_param_serialization
    (qp1 qp2 : List (String × JVal)) (k : String) (a b c : JVal) (v : JVal)
    (hv : v.isPlain = true)
    (hsep : ∀ kv ∈ qp1 ++ qp2, (kv.1 ≠ k ∧ kv.1 ++ "[]" ≠ k)
              ∧ (kv.1 ≠ k ++ "[]" ∧ kv.1 ++ "[]" ≠ k ++ "[]")) :
    ((buildSearchParams (qp1 ++ [(k, JVal.vArr [a, b, c])] ++ qp2)).filter
        (fun p => p.1 == k ++ "[]") =
      [(k ++ "[]", jsStr a), (k ++ "[]", jsStr b), (k ++ "[]", jsStr c)]
    ∧ (buildSearchParams (qp1 ++ [(k, JVal.vArr [a, b, c])] ++ qp2)).filter
        (fun p => p.1 == k) = [])
    ∧ ((buildSearchParams (qp1 ++ [(k, JVal.vNull)] ++ qp2)).filter
        (fun p => p.1 == k) = []
    ∧ (buildSearchParams (qp1 ++ [(k, JVal.vNull)] ++ qp2)).filter
        (fun p => p.1 == k ++ "[]") = []
    ∧ (buildSearchParams (qp1 ++ [(k, JVal.vUndefined)] ++ qp2)).filter
        (fun p => p.1 == k) = []
    ∧ (buildSearchParams (qp1 ++ [(k, JVal.vUndefined)] ++ qp2)).filter
        (fun p => p.1 == k ++ "[]") = [])
    ∧ (buildSearchParams (qp1 ++ [(k, v)] ++ qp2)).filter
        (fun p => p.1 == k) = [(k, jsStr v)] := by
  have h1k : ∀ kv ∈ qp1, kv.1 ≠ k ∧ kv.1 ++ "[]" ≠ k := fun kv hkv =>
    (hsep kv (List.mem_append_left _ hkv)).1
  have h2k : ∀ kv ∈ qp2, kv.1 ≠ k ∧ kv.1 ++ "[]" ≠ k := fun kv hkv =>
    (hsep kv (List.mem_append_right _ hkv)).1
  have h1b : ∀ kv ∈ qp1, kv.1 ≠ k ++ "[]" ∧ kv.1 ++ "[]" ≠ k ++ "[]" := fun kv hkv =>
    (hsep kv (List.mem_append_left _ hkv)).2
  have h2b : ∀ kv ∈ qp2, kv.1 ≠ k ++ "[]" ∧ kv.1 ++ "[]" ≠ k ++ "[]" := fun kv hkv =>
    (hsep kv (List.mem_append_right _ hkv)).2
  have f1k := filter_buildSearchParams_nil h1k
  have f2k := filter_buildSearchParams_nil h2k
  have f1b := filter_buildSearchParams_nil h1b
  have f2b := filter_buildSearchParams_nil h2b
  have hkb : (k == k ++ "[]") = false := by
    simp [ne_append_brackets k]
  have hbk : (k ++ "[]" == k) = false := by
    simp [(ne_append_brackets k).symm]
  have hmid : ∀ w : JVal, buildSearchParams (qp1 ++ [(k, w)] ++ qp2) =
      buildSearchParams qp1 ++ appendParamPairs k w ++ buildSearchParams qp2 := by
    intro w
    rw [buildSearchParams_append, buildSearchParams_append]
    simp [buildSearchParams]
  have hplain : appendParamPairs k v = [(k, jsStr v)] := by
    cases v <;> simp_all [appendParamPairs, JVal.isPlain]
  refine ⟨⟨?_, ?_⟩, ⟨?_, ?_, ?_, ?_⟩, ?_⟩
  · rw [hmid, List.filter_append, List.filter_append, f1b, f2b]
    simp [appendParamPairs, List.filter]
  · rw [hmid, List.filter_append, List.filter_append, f1k, f2k]
    simp [appendParamPairs, List.filter, hbk]
  · rw [hmid, List.filter_append, List.filter_append, f1k, f2k]
    simp [appendParamPairs]
  · rw [hmid, List.filter_append, List.filter_append, f1b, f2b]
    simp [appendParamPairs]
  · rw [hmid, List.filter_append, List.filter_append, f1k, f2k]
    simp [appendParamPairs]
  · rw [hmid, List.filter_append, List.filter_append, f1b, f2b]
    simp [appendParamPairs]
  · rw [hmid, List.filter_append, List.filter_append, f1k, f2k, hplain]
    simp [List.filter]

/-- C4 witness at a concrete mapping with an unrelated second key. -/
theorem c4_query_param_serialization_witness :
    ((buildSearchParams [("other", JVal.vInt 7), ("k", JVal.vArr
        [JVal.vInt 1, JVal.vStr "x", JVal.vNull])]).filter
        (fun p => p.1 == "k" ++ "[]") =
      [("k" ++ "[]", "1"), ("k" ++ "[]", "x"), ("k" ++ "[]", "null")]
    ∧ (buildSearchParams [("other", JVal.vInt 7), ("k", JVal.vArr
        [JVal.vInt 1, JVal.vStr "x", JVal.vNull])]).filter
        (fun p => p.1 == "k") = [])
    ∧ (buildSearchParams [("other", JVal.vInt 7), ("k", JVal.vNull)]).filter
        (fun p => p.1 == "k") = []
    ∧ (buildSearchParams [("other", JVal.vInt 7), ("k", JVal.vInt 5)]).filter
        (fun p => p.1 == "k") = [("k", "5")] := by
  have h := c4_query_param_serialization [("other", JVal.vInt 7)] [] "k"
    (JVal.vInt 1) (JVal.vStr "x") JVal.vNull (JVal.vInt 5) rfl
    (by
      intro kv hkv
      simp only [List.append_nil, List.mem_singleton] at hkv
      subst hkv
      refine ⟨⟨by decide, by decide⟩, by decide, by decide⟩)
  exact ⟨⟨h.1.1, h.1.2⟩, h.2.1.1, h.2.2⟩

/-- A string of length zero is the empty string. -/
lemma str_eq_empty_of_length_eq_zero {t : String} (h0 : t.length = 0) : t = "" := by
  cases t with
  | mk l =>
      cases l with
      | nil => rfl
      | cons c cs => simp [String.length] at h0

/-- Appending `/api` always produces a string ending in `/api`. -/
lemma strEndsWith_append_api (s : String) : strEndsWith (s ++ "/api") "/api" = true := by
  unfold strEndsWith
  have h4 : ("/api" : String).length = 4 := rfl
  have hlen2 : (s ++ "/api").length = s.length + 4 := by
    rw [String.length_append, h4]
  rw [h4, hlen2]
  have hd : (s ++ "/api").toList = s.toList ++ "/api".toList := by
    simp [String.toList, String.data_append]
  rw [hd]
  have hsub : s.length + 4 - 4 = s.length := by omega
  rw [hsub]
  have hdl : s.length = s.toList.length := rfl
  rw [hdl, List.drop_left]
  simp [Nat.le_add_left]

/-- The normalized base URL always ends with `/api`. -/
lemma normApi_endsWith (s : String) : strEndsWith (normApi s) "/api" = true := by
  unfold normApi
  cases h : strEndsWith s "/api" with
  | true => simp [h]
  | false => simp [h, strEndsWith_append_api]

/-- Base-URL normalization is idempotent. -/
lemma normApi_idem (s : String) : normApi (normApi s) = normApi s := by
  by_cases h : strEndsWith s "/api" = true
  · simp [normApi, h]
  · simp [normApi, h, strEndsWith_append_api]

/-- `validateString` with the `{ minLength: 1, sanitize: false }` options
accepts any string with non-empty trim of length at most 255 and returns it
unchanged. -/
lemma validateString_raw_ok (f : String) {s : String} (hne : jsTrim s ≠ "")
    (hlen : (jsTrim s).length ≤ 255) :
    validateString (StrInput.str s) f rawStrOpts = Except.ok s := by
  have hs : s ≠ "" := fun he => hne (by rw [he]; rfl)
  have h1 : 1 ≤ (jsTrim s).length := by
    by_contra hc
    push_neg at hc
    exact hne (str_eq_empty_of_length_eq_zero (by omega))
  have hnlt : ¬ (jsTrim s).length < 1 := by omega
  have hngt : ¬ (jsTrim s).length > 255 := by omega
  simp [validateString, rawStrOpts, minLenCheck, hs, hne, hnlt, hngt]

/-- C6: for every base-URL string accepted by the constructor (non-empty
after trimming, within the length bound), the stored base endpoint is the
`/api`-normalized URL; the normalization guarantees the `/api` suffix and is
idempotent; and the concrete round trip holds: `https://h/api` and
`https://h` both normalize to `https://h/api`. -/
theorem c6_base_url_normalization (s : String) (hne : jsTrim s ≠ "")
    (hlen : (jsTrim s).length ≤ 255) :
    mkGrocy (StrInput.str s) StrInput.jsNull =
      Except.ok { baseUrl := normApi s, apiKey := none }
    ∧ strEndsWith (normApi s) "/api" = true
    ∧ normApi (normApi s) = normApi s
    ∧ mkGrocy (StrInput.str "https://h/api") StrInput.jsNull =
        Except.ok { baseUrl := "https://h/api", apiKey := none }
    ∧ mkGrocy (StrInput.str "https://h") StrInput.jsNull =
        Except.ok { baseUrl := "https://h/api", apiKey := none } := by
  refine ⟨?_, normApi_endsWith s, normApi_idem s, by decide, by decide⟩
  simp [mkGrocy, validateString_raw_ok _ hne hlen, validateOptionalString, keyOrNull,
    Bind.bind, Except.bind]

/-- C6 witness at a concrete base URL without the `/api` suffix. -/
theorem c6_base_url_normalization_witness :
    mkGrocy (StrInput.str "https://grocy.example.com") StrInput.jsNull =
      Except.ok { baseUrl := normApi "https://grocy.example.com", apiKey := none }
    ∧ strEndsWith (normApi "https://grocy.example.com") "/api" = true
    ∧ normApi (normApi "https://grocy.example.com") = normApi "https://grocy.example.com" :=
  let h := c6_base_url_normalization "https://grocy.example.com" (by decide) (by decide)
  ⟨h.1, h.2.1, h.2.2.1⟩

/-- C7 counterexample: `validateNumber` only rejects `NaN`, not the
infinities, so `Infinity` with the default options (min 0, no max) is
returned unchanged although it is not finite — refuting the claim's
"if and only if the value is … finite". -/
theorem c7_counterexample_infinity :
    validateNumber (NumInput.num JsNumber.inf) "Amount" { min := 0, max := none } =
      Except.ok JsNumber.inf
    ∧ JsNumber.isFinite JsNumber.inf = false :=
  ⟨rfl, rfl⟩

/-- C7 (amended): `validateNumber` returns the value unchanged iff it is a
number, not `NaN`, not below `min`, and not above `max` when `max` is
present (`+Infinity` therefore passes when `max` is omitted); non-numbers
and `NaN` fail with "must be a valid number", values below `min` with
"must be at least <min>", and values above a present `max` with
"must be at most <max>". -/
theorem c7_validateNumber_behavior (v : NumInput) (f : String) (opts : NumOptions) :
    (∀ r : JsNumber, validateNumber v f opts = Except.ok r ↔
      (v = NumInput.num r ∧ r.isNaN = false ∧ r.ltQ opts.min = false ∧
        ∀ mx, opts.max = some mx → r.gtQ mx = false))
    ∧ ((v = NumInput.other ∨ v = NumInput.num JsNumber.nan) →
        validateNumber v f opts = Except.error (f ++ " must be a valid number"))
    ∧ (∀ n : JsNumber, v = NumInput.num n → n.isNaN = false → n.ltQ opts.min = true →
        validateNumber v f opts = Except.error (f ++ " must be at least " ++ qStr opts.min))
    ∧ (∀ n mx, v = NumInput.num n → n.isNaN = false → n.ltQ opts.min = false →
        opts.max = some mx → n.gtQ mx = true →
        validateNumber v f opts = Except.error (f ++ " must be at most " ++ qStr mx)) := by
  refine ⟨?_, ?_, ?_, ?_⟩
  · intro r
    constructor
    · intro h
      cases v with
      | other => simp [validateNumber] at h
      | num n =>
          by_cases hnan : n.isNaN = true
          · simp [validateNumber, hnan] at h
          · have hnan' : n.isNaN = false := by simpa using hnan
            by_cases hlt : n.ltQ opts.min = true
            · simp [validateNumber, hnan', hlt] at h
            · have hlt' : n.ltQ opts.min = false := by simpa using hlt
              cases hmx : opts.max with
              | none =>
                  simp [validateNumber, hnan', hlt', hmx] at h
                  subst h
                  exact ⟨rfl, hnan', hlt', by simp [hmx]⟩
              | some mx =>
                  by_cases hgt : n.gtQ mx = true
                  · simp [validateNumber, hnan', hlt', hmx, hgt] at h
                  · have hgt' : n.gtQ mx = false := by simpa using hgt
                    simp [validateNumber, hnan', hlt', hmx, hgt'] at h
                    subst h
                    refine ⟨rfl, hnan', hlt', ?_⟩
                    intro mx' hmx'
                    cases hmx'
                    exact hgt'
    · rintro ⟨hvv, hnan, hlt, hmx⟩
      subst hvv
      cases hm : opts.max with
      | none => simp [validateNumber, hnan, hlt, hm]
      | some mx => simp [validateNumber, hnan, hlt, hm, hmx mx hm]
  · rintro (hv | hv) <;> subst hv <;> simp [validateNumber, JsNumber.isNaN]
  · intro n hv hnan hlt
    subst hv
    simp [validateNumber, hnan, hlt]
  · intro n mx hv hnan hlt hmx hgt
    subst hv
    simp [validateNumber, hnan, hlt, hmx, hgt]

/-- C7 witness: 3 passes the bounds [0, 10] and is returned unchanged; a
non-number fails with the fixed message. -/
theorem c7_validateNumber_behavior_witness :
    validateNumber (NumInput.num (JsNumber.fin 3)) "Amount" { min := 0, max := some 10 } =
      Except.ok (JsNumber.fin 3)
    ∧ validateNumber NumInput.other "Amount" { min := 0, max := none } =
      Except.error "Amount must be a valid number" := by
  constructor
  · exact ((c7_validateNumber_behavior (NumInput.num (JsNumber.fin 3)) "Amount"
      { min := 0, max := some 10 }).1 (JsNumber.fin 3)).mpr
      ⟨rfl, rfl, by decide, by intro mx hmx; cases hmx; decide⟩
  · exact (c7_validateNumber_behavior NumInput.other "Amount"
      { min := 0, max := none }).2.1 (Or.inl rfl)

/-- C8 counterexample: `setApiKey(" k ")` stores the untrimmed string
`" k "` (validation only checks the trimmed length; with `sanitize: false`
the original string is returned), so the stored key can carry leading and
trailing whitespace. -/
theorem c8_counterexample_whitespace_key :
    setApiKey { baseUrl := "https://h/api", apiKey := none } (StrInput.str " k ") =
      Except.ok { baseUrl := "https://h/api", apiKey := some " k " }
    ∧ jsTrim " k " ≠ " k " := by
  refine ⟨by decide, by decide⟩

/-- A successfully validated optional API key is absent or a string whose
trim is non-empty (after the JS-truthiness collapse of `""` to `null`). -/
lemma keyOrNull_wf_of_valid {a : StrInput} {f : String} {vk : Option String}
    (h : validateOptionalString a f rawStrOpts = Except.ok vk) :
    keyOrNull vk = none ∨ ∃ k, keyOrNull vk = some k ∧ jsTrim k ≠ "" := by
  cases a with
  | jsNull =>
      simp [validateOptionalString] at h
      subst h
      left
      rfl
  | jsUndefined =>
      simp [validateOptionalString] at h
      subst h
      left
      rfl
  | other => simp [validateOptionalString, validateString, Except.map] at h
  | str s =>
      cases hv : validateString (StrInput.str s) f { rawStrOpts with required := false } with
      | error e => simp [validateOptionalString, hv, Except.map] at h
      | ok r =>
          simp [validateOptionalString, hv, Except.map] at h
          subst h
          by_cases hse : s = ""
          · subst hse
            have hr : r = "" := by
              simpa [validateString, rawStrOpts] using hv.symm
            subst hr
            left
            rfl
          · by_cases hlt : (jsTrim s).length < 1
            · simp [validateString, rawStrOpts, hse, minLenCheck, hlt] at hv
            · by_cases hgt : (jsTrim s).length > 255
              · simp [validateString, rawStrOpts, hse, minLenCheck, hlt, hgt] at hv
              · have hr : s = r := by
                  simpa [validateString, rawStrOpts, hse, minLenCheck, hlt, hgt]
                    using hv
                subst hr
                right
                refine ⟨s, by simp [keyOrNull, hse], ?_⟩
                intro htr
                have h0 : (jsTrim s).length = 0 := by rw [htr]; rfl
                omega

/-- C8 (amended): after construction and after every normally returning
`setApiKey` call, the stored API key is either absent (`null`) or a string
whose trimmed form is non-empty — never the empty string; it may however
carry leading or trailing whitespace, since the validated string is stored
verbatim. -/
theorem c8_apikey_invariant :
    (∀ b a st, mkGrocy b a = Except.ok st → apiKeyWF st)
    ∧ (∀ st a st', setApiKey st a = Except.ok st' → apiKeyWF st') := by
  constructor
  · intro b a st h
    cases hb : validateString b "Base URL" rawStrOpts with
    | error e => simp [mkGrocy, hb, Bind.bind, Except.bind] at h
    | ok vb =>
        cases ha : validateOptionalString a "API key" rawStrOpts with
        | error e => simp [mkGrocy, hb, ha, Bind.bind, Except.bind] at h
        | ok vk =>
            simp [mkGrocy, hb, ha, Bind.bind, Except.bind] at h
            have hw := keyOrNull_wf_of_valid ha
            unfold apiKeyWF
            rw [← h]
            simpa using hw
  · intro st a st' h
    cases ha : validateOptionalString a "API key" rawStrOpts with
    | error e => simp [setApiKey, ha, Bind.bind, Except.bind] at h
    | ok vk =>
        simp [setApiKey, ha, Bind.bind, Except.bind] at h
        have hw := keyOrNull_wf_of_valid ha
        unfold apiKeyWF
        rw [← h]
        simpa using hw

/-- C8 witness: setting a concrete key yields a state satisfying the
invariant. -/
theorem c8_apikey_invariant_witness :
    apiKeyWF { baseUrl := "https://h/api", apiKey := some "abc" } :=
  c8_apikey_invariant.2 { baseUrl := "https://h/api", apiKey := none }
    (StrInput.str "abc") { baseUrl := "https://h/api", apiKey := some "abc" } (by decide)

end NodeGrocy
